import Mathlib

/-
Shallow embedding of the economy/ledger core of ToukaBot (src/bot.py).

The global mutable dictionary ECON is modelled as the structure `Econ`
below; the per-guild-per-user nested dicts become functions
`Nat → Nat → Option _` where `none` models an absent key ("no account").
Python ints are `Int`; timestamps are `Int` (seconds); Python `round`
(banker's rounding, half to even) is `pyRound` over `ℚ`.  The source
computes payouts with binary floats; at every concrete value used in the
theorems below the float computation and the exact rational computation
agree (e.g. `int(round(100*(2.0-0.02))) = 198`).
-/

namespace Touka

/-- Python 3 `round` on an exact rational: nearest integer, ties to even. -/
def pyRound (q : ℚ) : ℤ :=
  let f := ⌊q⌋
  let frac := q - (f : ℚ)
  if frac < 1/2 then f
  else if 1/2 < frac then f + 1
  else if f % 2 = 0 then f else f + 1

/-- Per-user aggregate counters, `ECON["stats"][g][u]`
(src/bot.py line 431: `{"bets":0,"won":0,"lost":0,"biggest":0}`). -/
structure Stats where
  bets : Int
  won : Int
  lost : Int
  biggest : Int
deriving DecidableEq, Repr

/-- The default stats record inserted by `setdefault`. -/
def stats0 : Stats := ⟨0, 0, 0, 0⟩

/-- One history record, `{"t": ..., "game": ..., "bet": ..., "result": ...}`
(src/bot.py line 444). -/
structure HistEntry where
  t : Int
  game : String
  bet : Int
  result : Int
deriving DecidableEq, Repr

/-- The economy store `ECON` (src/bot.py lines 139-146), restricted to the
branches the claims touch.  An absent nested key is `none` / `[]`. -/
structure Econ where
  balances : Nat → Nat → Option Int
  stats : Nat → Nat → Option Stats
  history : Nat → Nat → List HistEntry
  lastDaily : Nat → Nat → Option Int

/-- The freshly-initialised store: every nested dict empty. -/
def econ0 : Econ := ⟨fun _ _ => none, fun _ _ => none, fun _ _ => [], fun _ _ => none⟩

/-- Point update of a two-level map (a Python `d[g][u] = v`). -/
def upd2 {α : Type} (f : Nat → Nat → α) (g u : Nat) (v : α) : Nat → Nat → α :=
  fun g' u' => if g' = g then (if u' = u then v else f g' u') else f g' u'

theorem upd2_same {α : Type} (f : Nat → Nat → α) (g u : Nat) (v : α) :
    upd2 f g u v g u = v := by
  simp [upd2]

theorem upd2_other {α : Type} (f : Nat → Nat → α) (g u : Nat) (v : α)
    (g' u' : Nat) (h : ¬(g' = g ∧ u' = u)) : upd2 f g u v g' u' = f g' u' := by
  by_cases hg : g' = g
  · have hu : ¬ u' = u := fun hu => h ⟨hg, hu⟩
    simp [upd2, hg, hu]
  · simp [upd2, hg]

/-- Function `eco_get` (src/bot.py lines 451-452): balance lookup, 0 when absent. -/
def eco_get (e : Econ) (g u : Nat) : Int :=
  (e.balances g u).getD 0

/-- Function `eco_add` (src/bot.py lines 426-439): add `delta` to the balance
(creating the account at 0), update the stats counters, and return the
new balance. -/
def eco_add (e : Econ) (g u : Nat) (delta : Int) : Econ × Int :=
  let newBal := (e.balances g u).getD 0 + delta
  let s0 := (e.stats g u).getD stats0
  let s1 :=
    if 0 < delta then
      { s0 with won := s0.won + delta,
                biggest := if s0.biggest < delta then delta else s0.biggest }
    else if delta < 0 then
      { s0 with lost := s0.lost + (-delta) }
    else s0
  ({ e with balances := upd2 e.balances g u (some newBal),
            stats := upd2 e.stats g u (some s1) }, newBal)

/-- Function `log_history` (src/bot.py lines 441-449): append one record, keep the
most recent 100 (`[-100:]`), and bump the `bets` counter.  The timestamp
`t` stands for the source's `_now_ts()` call. -/
def log_history (e : Econ) (g u : Nat) (t : Int) (game : String)
    (bet result : Int) : Econ :=
  let h1 := e.history g u ++ [⟨t, game, bet, result⟩]
  let h2 := if 100 < h1.length then h1.drop (h1.length - 100) else h1
  let s0 := (e.stats g u).getD stats0
  { e with history := upd2 e.history g u h2,
           stats := upd2 e.stats g u (some { s0 with bets := s0.bets + 1 }) }

/-- Running balances returned by a sequence of `eco_add` calls starting
from balance `b`. -/
def runningBalances : Int → List Int → List Int
  | _, [] => []
  | b, d :: ds => (b + d) :: runningBalances (b + d) ds

/-- Execute a list of deltas through `eco_add` on one account, collecting
the returned balances. -/
def runDeltas : Econ → Nat → Nat → List Int → Econ × List Int
  | e, _, _, [] => (e, [])
  | e, g, u, d :: ds =>
    let r := eco_add e g u d
    let rest := runDeltas r.1 g u ds
    (rest.1, r.2 :: rest.2)

theorem eco_add_get_same (e : Econ) (g u : Nat) (d : Int) :
    eco_get (eco_add e g u d).1 g u = eco_get e g u + d := by
  simp [eco_add, eco_get, upd2_same]

theorem eco_add_ret (e : Econ) (g u : Nat) (d : Int) :
    (eco_add e g u d).2 = eco_get e g u + d := by
  simp [eco_add, eco_get]

theorem runDeltas_get (e : Econ) (g u : Nat) (ds : List Int) :
    eco_get (runDeltas e g u ds).1 g u = eco_get e g u + ds.sum := by
  induction ds generalizing e with
  | nil => simp [runDeltas]
  | cons d ds ih =>
    simp only [runDeltas, List.sum_cons]
    rw [ih, eco_add_get_same]
    ring

theorem runDeltas_returns (e : Econ) (g u : Nat) (ds : List Int) :
    (runDeltas e g u ds).2 = runningBalances (eco_get e g u) ds := by
  induction ds generalizing e with
  | nil => simp [runDeltas, runningBalances]
  | cons d ds ih =>
    simp only [runDeltas, runningBalances]
    rw [ih, eco_add_get_same, eco_add_ret]

/-- C1: `eco_get` returns 0 when no account exists (and, being a total
function, never fails); every `eco_add` call returns the running balance,
and after a sequence of `eco_add` calls on one account the final balance
is the initial balance plus the sum of the deltas. -/
theorem C1_ledger (e : Econ) (g u : Nat) (ds : List Int) :
    (e.balances g u = none → eco_get e g u = 0)
    ∧ (runDeltas e g u ds).2 = runningBalances (eco_get e g u) ds
    ∧ eco_get (runDeltas e g u ds).1 g u = eco_get e g u + ds.sum := by
  refine ⟨fun h => ?_, runDeltas_returns e g u ds, runDeltas_get e g u ds⟩
  simp [eco_get, h]

/-- C1 witness: a fresh account reads 0; applying deltas 5, -3, 10 returns
running balances 5, 2, 12 and ends at 12. -/
theorem C1_ledger_witness :
    (econ0.balances 0 0 = none → eco_get econ0 0 0 = 0)
    ∧ (runDeltas econ0 0 0 [5, -3, 10]).2
        = runningBalances (eco_get econ0 0 0) [5, -3, 10]
    ∧ eco_get (runDeltas econ0 0 0 [5, -3, 10]).1 0 0
        = eco_get econ0 0 0 + ([5, -3, 10] : List Int).sum :=
  C1_ledger econ0 0 0 [5, -3, 10]

/-- The cooldown window of `daily_cmd`: `23*3600 + 30*60` seconds (23h30m). -/
def dailyCooldown : Int := 23 * 3600 + 30 * 60

/-- Resolution core of `daily_cmd` (src/bot.py lines 675-688), after the
channel/enabled checks: `last` defaults to 0, the claim is rejected while
`now - last < 23*3600 + 30*60`; otherwise the timestamp is set to `now`
and the effective daily amount is credited via `eco_add`.  Returns the
new store and whether the claim was honored. -/
def daily_cmd (e : Econ) (g u : Nat) (now daily : Int) : Econ × Bool :=
  let last := (e.lastDaily g u).getD 0
  if now - last < dailyCooldown then (e, false)
  else
    let e1 := { e with lastDaily := upd2 e.lastDaily g u (some now) }
    ((eco_add e1 g u daily).1, true)

/-- C7: a daily claim is honored exactly when `now - last ≥ 23h30m`; a
successful claim credits the effective daily amount and stamps `now`; a
rejected claim mutates nothing. -/
theorem C7_daily (e : Econ) (g u : Nat) (now daily : Int) :
    ((daily_cmd e g u now daily).2 = true
      ↔ dailyCooldown ≤ now - (e.lastDaily g u).getD 0)
    ∧ ((daily_cmd e g u now daily).2 = true →
        eco_get (daily_cmd e g u now daily).1 g u = eco_get e g u + daily
        ∧ (daily_cmd e g u now daily).1.lastDaily g u = some now)
    ∧ ((daily_cmd e g u now daily).2 = false → (daily_cmd e g u now daily).1 = e) := by
  by_cases h : now - (e.lastDaily g u).getD 0 < dailyCooldown
  · constructor
    · simp [daily_cmd, h]
    · constructor
      · intro habs
        simp [daily_cmd, h] at habs
      · intro _
        simp [daily_cmd, h]
  · have h2 : dailyCooldown ≤ now - (e.lastDaily g u).getD 0 := by omega
    refine ⟨by simp [daily_cmd, h, h2], fun _ => ⟨?_, ?_⟩, fun habs => ?_⟩
    · simp [daily_cmd, h, eco_add, eco_get, upd2_same]
    · simp [daily_cmd, h, eco_add, upd2_same]
    · simp [daily_cmd, h] at habs

/-- C7 witness: user 0 in guild 0 with no prior claim, at `now = 100000`
and daily amount 500: the claim is honored, credits 500 and stamps the
time. -/
theorem C7_daily_witness :
    ((daily_cmd econ0 0 0 100000 500).2 = true
      ↔ dailyCooldown ≤ 100000 - ((econ0.lastDaily 0 0).getD 0))
    ∧ ((daily_cmd econ0 0 0 100000 500).2 = true →
        eco_get (daily_cmd econ0 0 0 100000 500).1 0 0 = eco_get econ0 0 0 + 500
        ∧ (daily_cmd econ0 0 0 100000 500).1.lastDaily 0 0 = some 100000)
    ∧ ((daily_cmd econ0 0 0 100000 500).2 = false
        → (daily_cmd econ0 0 0 100000 500).1 = econ0) :=
  C7_daily econ0 0 0 100000 500

theorem log_history_history (e : Econ) (g u : Nat) (t : Int) (game : String)
    (bet res : Int) :
    (log_history e g u t game bet res).history g u
      = if 100 < (e.history g u).length + 1
        then (e.history g u).drop ((e.history g u).length + 1 - 100)
              ++ [⟨t, game, bet, res⟩]
        else e.history g u ++ [⟨t, game, bet, res⟩] := by
  simp only [log_history, upd2_same, List.length_append, List.length_singleton]
  by_cases h : 100 < (e.history g u).length + 1
  · rw [if_pos h, if_pos h, List.drop_append_of_le_length (by omega)]
  · rw [if_neg h, if_neg h]

/-- C8: after every `log_history` call the history holds at most 100
entries (exactly `min (old+1) 100`), is a suffix of the appended
sequence (the retained entries are the most recent ones, in order), ends
with the entry just appended, and the `bets` counter grew by one. -/
theorem C8_history (e : Econ) (g u : Nat) (t : Int) (game : String)
    (bet res : Int) :
    ((log_history e g u t game bet res).history g u).length
        = min ((e.history g u).length + 1) 100
    ∧ ((log_history e g u t game bet res).history g u)
        <:+ e.history g u ++ [⟨t, game, bet, res⟩]
    ∧ ((log_history e g u t game bet res).history g u).getLast?
        = some ⟨t, game, bet, res⟩
    ∧ (((log_history e g u t game bet res).stats g u).getD stats0).bets
        = ((e.stats g u).getD stats0).bets + 1 := by
  rw [log_history_history]
  by_cases h : 100 < (e.history g u).length + 1
  · refine ⟨?_, ?_, ?_, ?_⟩
    · rw [if_pos h]
      simp only [List.length_append, List.length_drop, List.length_singleton]
      omega
    · rw [if_pos h]
      refine ⟨(e.history g u).take ((e.history g u).length + 1 - 100), ?_⟩
      rw [← List.append_assoc, List.take_append_drop]
    · rw [if_pos h]
      exact List.getLast?_concat _
    · simp [log_history, upd2_same]
  · refine ⟨?_, ?_, ?_, ?_⟩
    · rw [if_neg h]
      simp only [List.length_append, List.length_singleton]
      omega
    · rw [if_neg h]
    · rw [if_neg h]
      exact List.getLast?_concat _
    · simp [log_history, upd2_same]

/-- A Python settings value: `none` is Python `None`, `some n` an int.
(Ints suffice for the keys the claims exercise, e.g. channel ids.) -/
abbrev PyVal := Option Int

/-- Map `ECON["settings"]`: guild id → (present?) override map, key → (present?) value. -/
abbrev SettingsMap := Nat → Option (String → Option PyVal)

/-- The process-wide `CONFIG` dict: key → (present?) value. -/
abbrev ConfigMap := String → Option PyVal

/-- Function `guild_setting` (src/bot.py lines 411-415): the guild's stored value
whenever the guild has an override map containing the key (even if the
stored value is `None`), else `CONFIG.get(key, default)`. -/
def guild_setting (s : SettingsMap) (cfg : ConfigMap) (g : Nat) (key : String)
    (default : PyVal) : PyVal :=
  match s g with
  | some m =>
    match m key with
    | some v => v
    | none => (cfg key).getD default
  | none => (cfg key).getD default

/-- Function `set_guild_setting` (src/bot.py lines 407-409): store `v` under `key`
in the guild's override map, creating the map if absent. -/
def set_guild_setting (s : SettingsMap) (g : Nat) (key : String) (v : PyVal) :
    SettingsMap :=
  fun g' =>
    if g' = g then
      some (fun k => if k = key then some v else ((s g).getD (fun _ => none)) k)
    else s g'

/-- Function `_get_gambling_channel_id` (src/bot.py lines 457-459):
`int(val) if val else None`, so Python `None` and `0` both yield no
restriction. -/
def get_gambling_channel_id (s : SettingsMap) (cfg : ConfigMap) (g : Nat) :
    Option Int :=
  match guild_setting s cfg g "GAMBLING_CHANNEL_ID" none with
  | none => none
  | some v => if v = 0 then none else some v

/-- The channel test of `in_gambling_channel` (src/bot.py lines 486-498):
with no configured channel every channel passes, otherwise only the
configured one. -/
def channel_allowed (s : SettingsMap) (cfg : ConfigMap) (g : Nat)
    (chan : Int) : Bool :=
  match get_gambling_channel_id s cfg g with
  | none => true
  | some a => chan = a

/-- C9: `guild_setting` returns the stored override whenever the key is
present — including a stored `None` — and falls back to `CONFIG` only
when the key (or the guild's map) is absent; storing `None` under
`GAMBLING_CHANNEL_ID` (the `clear_channel` path of
`gambling_settings_cmd`, src/bot.py line 1006) therefore shadows any
global default and lifts the channel confinement entirely. -/
theorem C9_guild_setting (s : SettingsMap) (cfg : ConfigMap) (g : Nat)
    (key : String) (default : PyVal) :
    (∀ m v, s g = some m → m key = some v →
        guild_setting s cfg g key default = v)
    ∧ (∀ m, s g = some m → m key = none →
        guild_setting s cfg g key default = (cfg key).getD default)
    ∧ (s g = none → guild_setting s cfg g key default = (cfg key).getD default)
    ∧ guild_setting (set_guild_setting s g key none) cfg g key default = none
    ∧ (∀ chan : Int,
        channel_allowed (set_guild_setting s g "GAMBLING_CHANNEL_ID" none)
          cfg g chan = true) := by
  refine ⟨?_, ?_, ?_, ?_, ?_⟩
  · intro m v hm hk
    simp [guild_setting, hm, hk]
  · intro m hm hk
    simp [guild_setting, hm, hk]
  · intro hm
    simp [guild_setting, hm]
  · simp [guild_setting, set_guild_setting]
  · intro chan
    simp [channel_allowed, get_gambling_channel_id, guild_setting,
      set_guild_setting]

/-- C9 witness: guild 0 stores key `K` as 5 and the override is returned;
after clearing the gambling channel with a stored `None`, channel 7 is
allowed even though `CONFIG` sets `GAMBLING_CHANNEL_ID` to 123. -/
theorem C9_guild_setting_witness :
    guild_setting
        (fun g => if g = 0
          then some (fun k => if k = "K" then some (some 5) else none)
          else none)
        (fun k => if k = "GAMBLING_CHANNEL_ID" then some (some 123) else none)
        0 "K" none = some 5
    ∧ channel_allowed
        (set_guild_setting
          (fun g => if g = 0
            then some (fun k => if k = "K" then some (some 5) else none)
            else none)
          0 "GAMBLING_CHANNEL_ID" none)
        (fun k => if k = "GAMBLING_CHANNEL_ID" then some (some 123) else none)
        0 7 = true := by
  constructor
  · exact (C9_guild_setting _ _ 0 "K" none).1
      (fun k => if k = "K" then some (some 5) else none) (some 5) rfl rfl
  · exact (C9_guild_setting _ _ 0 "GAMBLING_CHANNEL_ID" none).2.2.2.2 7

theorem log_history_keeps_balances (e : Econ) (g u : Nat) (t : Int)
    (gm : String) (b r : Int) :
    (log_history e g u t gm b r).balances = e.balances := rfl

theorem log_history_keeps_won (e : Econ) (g u : Nat) (t : Int)
    (gm : String) (b r : Int) :
    (((log_history e g u t gm b r).stats g u).getD stats0).won
      = ((e.stats g u).getD stats0).won := by
  simp [log_history, upd2_same]

theorem eco_add_won_pos (e : Econ) (g u : Nat) (d : Int) (hd : 0 < d) :
    (((eco_add e g u d).1.stats g u).getD stats0).won
      = ((e.stats g u).getD stats0).won + d := by
  simp [eco_add, upd2_same, hd]

theorem eco_add_keeps_history (e : Econ) (g u : Nat) (d : Int) :
    (eco_add e g u d).1.history = e.history := rfl

/-- Resolution core of `coinflip_cmd` (src/bot.py lines 710-718), after
the validation checks: the RNG result `res` is compared with the caller's
`side`; a win credits `int(round(bet * (2.0 - edge)))` — the stake is not
debited first — and a loss debits the stake; each branch logs one history
entry. -/
def coinflip_resolve (e : Econ) (g u : Nat) (t : Int) (bet : Int) (edge : ℚ)
    (side res : String) : Econ :=
  if res = side then
    let win := pyRound ((bet : ℚ) * (2 - edge))
    log_history (eco_add e g u win).1 g u t "coinflip" bet win
  else
    log_history (eco_add e g u (-bet)).1 g u t "coinflip" bet (-bet)

/-- C4: the spec's worked scenario.  With balance 1000, bet 100, edge
0.02, guess heads and the RNG resolving heads, the delta is
`round(100*(2.0-0.02)) = 198`, the balance becomes 1198, `stats.won`
grows by 198 and exactly one entry `{game: coinflip, bet: 100,
result: 198}` is appended to the history. -/
theorem C4_coinflip_example (e : Econ) (g u : Nat) (t : Int)
    (hb : eco_get e g u = 1000) (hh : (e.history g u).length ≤ 99) :
    pyRound ((100 : ℚ) * (2 - 1/50)) = 198
    ∧ eco_get (coinflip_resolve e g u t 100 (1/50) "heads" "heads") g u = 1198
    ∧ (((coinflip_resolve e g u t 100 (1/50) "heads" "heads").stats g u).getD
        stats0).won = ((e.stats g u).getD stats0).won + 198
    ∧ (coinflip_resolve e g u t 100 (1/50) "heads" "heads").history g u
        = e.history g u ++ [⟨t, "coinflip", 100, 198⟩] := by
  have hwin : pyRound ((100 : ℚ) * (2 - 1/50)) = 198 := by
    norm_num [pyRound]
  have hwin2 : pyRound (((100 : ℤ) : ℚ) * (2 - 1/50)) = 198 := by
    have hc : ((100 : ℤ) : ℚ) = (100 : ℚ) := by norm_num
    rw [hc]
    exact hwin
  have hres : coinflip_resolve e g u t 100 (1/50) "heads" "heads"
      = log_history (eco_add e g u 198).1 g u t "coinflip" 100 198 := by
    simp [coinflip_resolve]
    norm_num [pyRound]
  refine ⟨hwin, ?_, ?_, ?_⟩
  · rw [hres]
    have heq : eco_get
        (log_history (eco_add e g u 198).1 g u t "coinflip" 100 198)
        g u = eco_get (eco_add e g u 198).1 g u := rfl
    rw [heq, eco_add_get_same, hb]
    norm_num
  · rw [hres, log_history_keeps_won, eco_add_won_pos]
    norm_num
  · rw [hres, log_history_history]
    have hlen : ((eco_add e g u 198).1.history g u).length
        = (e.history g u).length := by
      rw [eco_add_keeps_history]
    rw [if_neg (by rw [hlen]; omega), eco_add_keeps_history]

/-- C4 witness: the scenario run from a concrete store holding balance
1000 and an empty history for user 0 of guild 0. -/
theorem C4_coinflip_example_witness :
    pyRound ((100 : ℚ) * (2 - 1/50)) = 198
    ∧ eco_get (coinflip_resolve
        { econ0 with balances := fun _ _ => some 1000 }
        0 0 7 100 (1/50) "heads" "heads") 0 0 = 1198
    ∧ (((coinflip_resolve { econ0 with balances := fun _ _ => some 1000 }
        0 0 7 100 (1/50) "heads" "heads").stats 0 0).getD stats0).won
      = ((({ econ0 with balances := fun _ _ => some 1000 } : Econ).stats 0 0).getD
          stats0).won + 198
    ∧ (coinflip_resolve { econ0 with balances := fun _ _ => some 1000 }
        0 0 7 100 (1/50) "heads" "heads").history 0 0
      = ({ econ0 with balances := fun _ _ => some 1000 } : Econ).history 0 0
          ++ [⟨7, "coinflip", 100, 198⟩] :=
  C4_coinflip_example { econ0 with balances := fun _ _ => some 1000 } 0 0 7
    rfl (by simp [econ0])

/-- Expected resolved delta of one coinflip over the uniform heads/tails
randomness: the win branch (probability 1/2) credits
`round(bet*(2.0-edge))` and the loss branch (probability 1/2) debits the
stake, exactly as in `coinflip_resolve`. -/
def coinflipEV (bet : Int) (edge : ℚ) : ℚ :=
  ((pyRound ((bet : ℚ) * (2 - edge)) : ℚ) + (-(bet : ℚ))) / 2

theorem pyRound_ge (q : ℚ) : q - 1/2 ≤ (pyRound q : ℚ) := by
  have h0 : (⌊q⌋ : ℚ) ≤ q := Int.floor_le q
  have h1 : q < ⌊q⌋ + 1 := Int.lt_floor_add_one q
  simp only [pyRound]
  split_ifs with hc hc2 hc3 <;> push_cast <;> linarith

/-- C2 counterexample: at bet 100 and edge 0.02 the expected delta per
unit bet of coinflip is `+49/100`, which is positive and is nowhere near
`-edge = -1/50` (the gap is 51/100). -/
theorem C2_coinflip_ev_cex :
    coinflipEV 100 (1/50) / 100 = 49/100
    ∧ 0 < coinflipEV 100 (1/50)
    ∧ ¬ |coinflipEV 100 (1/50) / 100 - (-(1/50))| ≤ 1/10 := by
  have hv : coinflipEV 100 (1/50) = 49 := by
    have hw : pyRound (((100 : ℤ) : ℚ) * (2 - 1/50)) = 198 := by
      norm_num [pyRound]
    rw [coinflipEV, hw]
    norm_num
  refine ⟨by rw [hv], by rw [hv]; norm_num, ?_⟩
  rw [hv, show (49 : ℚ) / 100 - (-(1/50)) = 51/100 by norm_num,
    abs_of_pos (by norm_num : (0 : ℚ) < 51/100)]
  norm_num

/-- C2 amended: because the winning branch credits the full rounded
payout `round(bet*(2.0-edge))` without ever debiting the stake, the
expected coinflip delta is strictly positive for every bet ≥ 1 and every
edge in (0, 1/2) — the player, not the house, wins in expectation, and in
particular the expectation strictly exceeds `-edge` per unit bet. -/
theorem C2_coinflip_ev_amended (bet : Int) (edge : ℚ)
    (hb : 1 ≤ bet) (h0 : 0 < edge) (h1 : edge < 1/2) :
    0 < coinflipEV bet edge ∧ -edge * bet < coinflipEV bet edge := by
  have hq : (1 : ℚ) ≤ (bet : ℚ) := by exact_mod_cast hb
  have hR := pyRound_ge ((bet : ℚ) * (2 - edge))
  have hmul : (1 : ℚ) * (1 - edge) ≤ (bet : ℚ) * (1 - edge) :=
    mul_le_mul_of_nonneg_right hq (by linarith)
  have hpos : 0 < coinflipEV bet edge := by
    simp only [coinflipEV]
    nlinarith
  refine ⟨hpos, ?_⟩
  have : -edge * bet < 0 := by
    have hbp : (0 : ℚ) < (bet : ℚ) := by linarith
    nlinarith
  linarith

/-- C2 amended witness: at bet 100, edge 1/50 the amended bounds hold. -/
theorem C2_coinflip_ev_amended_witness :
    0 < coinflipEV 100 (1/50) ∧ -(1/50) * 100 < coinflipEV 100 (1/50) :=
  C2_coinflip_ev_amended 100 (1/50) (by norm_num) (by norm_num) (by norm_num)

/-- One redeem-code record, `ECON["redeem"][g][code]` (src/bot.py line
1068).  `claimedBy` models the `claimed_by` list of user ids; the source
checks membership through `set(...)` and rewrites the list as
`list(set | {uid})`, whose order Python leaves unspecified — the model
uses `u :: dedup`, which has the same members and no duplicates. -/
structure RedeemEntry where
  amount : Int
  maxUses : Int
  uses : Int
  expires : Int
  note : String
  claimedBy : List Nat
  disabled : Bool
deriving DecidableEq, Repr

/-- Default record, used only to project fields out of an `Option`. -/
def entry0 : RedeemEntry := ⟨0, 1, 0, 0, "", [], false⟩

/-- The five user-visible failure reasons of `redeem_cmd`. -/
inductive RedeemError where
  | notFound
  | disabled
  | expired
  | alreadyClaimed
  | exhausted
deriving DecidableEq, Repr

/-- One guild's code bucket, `_redeem_bucket(guild)` (src/bot.py 1028-1029). -/
abbrev Codes := String → Option RedeemEntry

/-- The empty bucket. -/
def codes0 : Codes := fun _ => none

/-- Handler `redeem_cmd` (src/bot.py lines 1032-1054): check, in order, unknown
code, disabled, expired (`exp and now > exp`), already claimed, max uses
reached; on success credit the amount via `eco_add`, bump `uses` and add
the user to `claimed_by`.  Every failure branch returns with the store
and the bucket untouched. -/
def redeem_cmd (e : Econ) (codes : Codes) (g u : Nat) (code : String)
    (now : Int) : Econ × Codes × Except RedeemError Int :=
  match codes code with
  | none => (e, codes, .error .notFound)
  | some en =>
    if en.disabled then (e, codes, .error .disabled)
    else if en.expires ≠ 0 ∧ en.expires < now then (e, codes, .error .expired)
    else if u ∈ en.claimedBy then (e, codes, .error .alreadyClaimed)
    else if en.maxUses ≤ en.uses then (e, codes, .error .exhausted)
    else
      let e1 := (eco_add e g u en.amount).1
      let en1 := { en with uses := en.uses + 1,
                           claimedBy := u :: en.claimedBy.dedup }
      (e1, fun c => if c = code then some en1 else codes c, .ok en.amount)

/-- C3: the failure reasons of `redeem_cmd` are checked exactly in the
order NotFound, Disabled, Expired, AlreadyClaimed, Exhausted; every
failure leaves the ledger and the code bucket untouched; success credits
the amount, bumps `uses` by one and inserts the user into the claimant
set. -/
theorem C3_redeem (e : Econ) (codes : Codes) (g u : Nat) (code : String)
    (now : Int) :
    (codes code = none →
      redeem_cmd e codes g u code now = (e, codes, .error .notFound))
    ∧ (∀ en, codes code = some en →
        (en.disabled = true →
          redeem_cmd e codes g u code now = (e, codes, .error .disabled))
        ∧ (en.disabled = false → en.expires ≠ 0 → en.expires < now →
          redeem_cmd e codes g u code now = (e, codes, .error .expired))
        ∧ (en.disabled = false → ¬(en.expires ≠ 0 ∧ en.expires < now) →
            u ∈ en.claimedBy →
          redeem_cmd e codes g u code now = (e, codes, .error .alreadyClaimed))
        ∧ (en.disabled = false → ¬(en.expires ≠ 0 ∧ en.expires < now) →
            u ∉ en.claimedBy → en.maxUses ≤ en.uses →
          redeem_cmd e codes g u code now = (e, codes, .error .exhausted))
        ∧ (en.disabled = false → ¬(en.expires ≠ 0 ∧ en.expires < now) →
            u ∉ en.claimedBy → en.uses < en.maxUses →
          (redeem_cmd e codes g u code now).2.2 = .ok en.amount
          ∧ eco_get (redeem_cmd e codes g u code now).1 g u
              = eco_get e g u + en.amount
          ∧ (redeem_cmd e codes g u code now).2.1 code
              = some { en with uses := en.uses + 1,
                               claimedBy := u :: en.claimedBy.dedup })) := by
  constructor
  · intro h
    simp [redeem_cmd, h]
  · intro en hen
    refine ⟨?_, ?_, ?_, ?_, ?_⟩
    · intro hd
      simp [redeem_cmd, hen, hd]
    · intro hd hx hlt
      simp [redeem_cmd, hen, hd, hx, hlt]
    · intro hd hx hm
      simp [redeem_cmd, hen, hd, hx, hm]
    · intro hd hx hm hu
      simp [redeem_cmd, hen, hd, hx, hm, hu]
    · intro hd hx hm hu
      have hnu : ¬ en.maxUses ≤ en.uses := not_le.mpr hu
      refine ⟨?_, ?_, ?_⟩
      · simp [redeem_cmd, hen, hd, hx, hm, hnu]
      · have h1 : (redeem_cmd e codes g u code now).1
            = (eco_add e g u en.amount).1 := by
          simp [redeem_cmd, hen, hd, hx, hm, hnu]
        rw [h1, eco_add_get_same]
      · simp [redeem_cmd, hen, hd, hx, hm, hnu]

/-- C3 witness: the spec's own second-claim scenario — a code with
`max_uses = 1` already claimed once by user 1 fails with Exhausted for
user 2 and changes nothing. -/
theorem C3_redeem_witness :
    redeem_cmd econ0
      (fun c => if c = "X" then some ⟨500, 1, 1, 0, "", [1], false⟩ else none)
      0 2 "X" 5
    = (econ0,
       (fun c => if c = "X" then some ⟨500, 1, 1, 0, "", [1], false⟩ else none),
       .error .exhausted) :=
  (((C3_redeem econ0
      (fun c => if c = "X" then some ⟨500, 1, 1, 0, "", [1], false⟩ else none)
      0 2 "X" 5).2 ⟨500, 1, 1, 0, "", [1], false⟩ rfl).2.2.2.1)
    rfl (by decide) (by decide) (by decide)

/-- The administrative and user operations on one guild's code bucket:
`redeemadmin create` (src/bot.py 1062-1071), `/redeem` (1032-1054),
`redeemadmin edit` — which also carries the disable flag — (1076-1088)
and `redeemadmin delete` (1092-1096). -/
inductive RedeemOp where
  | create (code : String) (amount maxUses : Int) (expiresMin : Option Int)
      (note : Option String) (now : Int)
  | redeemOp (u : Nat) (code : String) (now : Int)
  | edit (code : String) (amount maxUses expiresMin : Option Int)
      (note : Option String) (disable : Option Bool) (now : Int)
  | delete (code : String)

/-- Expiry stored by `redeemadmin create`: `now + minutes*60` when a
positive minute count is supplied (`expires_minutes and ... > 0`), else 0. -/
def createExpiry (em : Option Int) (now : Int) : Int :=
  match em with
  | some m => if 0 < m then now + m * 60 else 0
  | none => 0

/-- Expiry stored by `redeemadmin edit`: 0 clears, other values mean
`now + minutes*60`, absence keeps the old stamp. -/
def editExpiry (em : Option Int) (old now : Int) : Int :=
  match em with
  | some m => if m = 0 then 0 else now + m * 60
  | none => old

/-- The record written by `redeemadmin edit`: each supplied option
overwrites its field — including `max_uses`, stored unconditionally. -/
def editEntry (en : RedeemEntry) (amount maxUses em : Option Int)
    (note : Option String) (disable : Option Bool) (now : Int) : RedeemEntry :=
  { en with
    amount := amount.getD en.amount,
    maxUses := maxUses.getD en.maxUses,
    expires := editExpiry em en.expires now,
    note := note.getD en.note,
    disabled := disable.getD en.disabled }

/-- One operation applied to the store and the bucket of guild `g`. -/
def runOp (g : Nat) (s : Econ × Codes) : RedeemOp → Econ × Codes
  | .create code amount maxUses em note now =>
    if (s.2 code).isSome then s
    else
      (s.1, fun c => if c = code
        then some ⟨amount, maxUses, 0, createExpiry em now, note.getD "", [], false⟩
        else s.2 c)
  | .redeemOp u code now =>
    let r := redeem_cmd s.1 s.2 g u code now
    (r.1, r.2.1)
  | .edit code amount maxUses em note disable now =>
    match s.2 code with
    | none => s
    | some en =>
      (s.1, fun c => if c = code
        then some (editEntry en amount maxUses em note disable now)
        else s.2 c)
  | .delete code =>
    (s.1, fun c => if c = code then none else s.2 c)

theorem redeem_cmd_none (e : Econ) (codes : Codes) (g u : Nat)
    (code : String) (now : Int) (h : codes code = none) :
    redeem_cmd e codes g u code now = (e, codes, .error .notFound) := by
  unfold redeem_cmd
  rw [h]

theorem redeem_cmd_some (e : Econ) (codes : Codes) (g u : Nat)
    (code : String) (now : Int) (en : RedeemEntry) (h : codes code = some en) :
    redeem_cmd e codes g u code now =
      (if en.disabled then (e, codes, .error .disabled)
       else if en.expires ≠ 0 ∧ en.expires < now then (e, codes, .error .expired)
       else if u ∈ en.claimedBy then (e, codes, .error .alreadyClaimed)
       else if en.maxUses ≤ en.uses then (e, codes, .error .exhausted)
       else ((eco_add e g u en.amount).1,
             fun c => if c = code
               then some { en with uses := en.uses + 1,
                                   claimedBy := u :: en.claimedBy.dedup }
               else codes c,
             .ok en.amount)) := by
  unfold redeem_cmd
  rw [h]

/-- A list of operations, applied left to right. -/
def runOps (g : Nat) (s : Econ × Codes) (ops : List RedeemOp) : Econ × Codes :=
  ops.foldl (runOp g) s

/-- C5 counterexample: create a code with `max_uses = 1`, redeem it once,
then edit `max_uses` down to 0 — `redeem_edit` stores the new bound
unconditionally, so afterwards `uses_so_far = 1 > 0 = max_uses` and the
claimed invariant is violated. -/
theorem C5_invariant_cex :
    ((((runOps 0 (econ0, codes0)
        [.create "A" 10 1 none none 0, .redeemOp 1 "A" 0,
         .edit "A" none (some 0) none none none 0]).2 "A").getD entry0).uses
      = 1)
    ∧ ((((runOps 0 (econ0, codes0)
        [.create "A" 10 1 none none 0, .redeemOp 1 "A" 0,
         .edit "A" none (some 0) none none none 0]).2 "A").getD entry0).maxUses
      = 0)
    ∧ ¬((((runOps 0 (econ0, codes0)
        [.create "A" 10 1 none none 0, .redeemOp 1 "A" 0,
         .edit "A" none (some 0) none none none 0]).2 "A").getD entry0).uses
      ≤ (((runOps 0 (econ0, codes0)
        [.create "A" 10 1 none none 0, .redeemOp 1 "A" 0,
         .edit "A" none (some 0) none none none 0]).2 "A").getD entry0).maxUses) := by
  decide

/-- The uses-bound half of the claimed invariant: `uses_so_far` never
exceeds `max_uses`. -/
def usesInv (codes : Codes) : Prop :=
  ∀ c en, codes c = some en → en.uses ≤ en.maxUses

/-- The claimant-uniqueness half of the claimed invariant: no user id
appears twice in a claimant set. -/
def claimInv (codes : Codes) : Prop :=
  ∀ c en, codes c = some en → en.claimedBy.Nodup

/-- Precondition for the uses bound, relative to the state the operation
runs in — exactly what the counterexample forces: a created code carries
a non-negative cap, and an edit that supplies a new `max_uses` does not
push it below the code's `uses_so_far` at that point (`redeem_edit`
stores a supplied cap unconditionally).  Redeeming and deleting need no
condition. -/
def opOkAt (s : Econ × Codes) : RedeemOp → Prop
  | .create _ _ maxUses _ _ _ => 0 ≤ maxUses
  | .edit code _ maxUses _ _ _ _ =>
    ∀ m en, maxUses = some m → s.2 code = some en → en.uses ≤ m
  | _ => True

/-- A run each of whose operations satisfies `opOkAt` in its own state. -/
def safeRun (g : Nat) : Econ × Codes → List RedeemOp → Prop
  | _, [] => True
  | s, op :: ops => opOkAt s op ∧ safeRun g (runOp g s op) ops

theorem runOp_usesInv (g : Nat) (s : Econ × Codes) (op : RedeemOp)
    (hs : usesInv s.2) (hop : opOkAt s op) : usesInv (runOp g s op).2 := by
  cases op with
  | create code amount maxUses em note now =>
    by_cases hex : (s.2 code).isSome = true
    · have hr : runOp g s (.create code amount maxUses em note now) = s := by
        simp [runOp, hex]
      rw [hr]
      exact hs
    · intro c en hc
      have hc2 : (if c = code
          then some (⟨amount, maxUses, 0, createExpiry em now,
            note.getD "", [], false⟩ : RedeemEntry)
          else s.2 c) = some en := by
        have hr : runOp g s (.create code amount maxUses em note now)
            = (s.1, fun c => if c = code
                then some ⟨amount, maxUses, 0, createExpiry em now,
                  note.getD "", [], false⟩
                else s.2 c) := by
          simp [runOp, hex]
        rw [hr] at hc
        exact hc
      by_cases hcc : c = code
      · rw [if_pos hcc] at hc2
        cases hc2
        exact hop
      · rw [if_neg hcc] at hc2
        exact hs c en hc2
  | redeemOp u code now =>
    intro c en hc
    have hc1 : (redeem_cmd s.1 s.2 g u code now).2.1 c = some en := hc
    rcases hcode : s.2 code with _ | en0
    · rw [redeem_cmd_none s.1 s.2 g u code now hcode] at hc1
      exact hs c en hc1
    · rw [redeem_cmd_some s.1 s.2 g u code now en0 hcode] at hc1
      by_cases hd : en0.disabled = true
      · rw [if_pos hd] at hc1
        exact hs c en hc1
      · rw [if_neg hd] at hc1
        by_cases hx : en0.expires ≠ 0 ∧ en0.expires < now
        · rw [if_pos hx] at hc1
          exact hs c en hc1
        · rw [if_neg hx] at hc1
          by_cases hm : u ∈ en0.claimedBy
          · rw [if_pos hm] at hc1
            exact hs c en hc1
          · rw [if_neg hm] at hc1
            by_cases hu : en0.maxUses ≤ en0.uses
            · rw [if_pos hu] at hc1
              exact hs c en hc1
            · rw [if_neg hu] at hc1
              have hc2 : (if c = code
                  then some { en0 with uses := en0.uses + 1,
                                       claimedBy := u :: en0.claimedBy.dedup }
                  else s.2 c) = some en := hc1
              by_cases hcc : c = code
              · rw [if_pos hcc] at hc2
                cases hc2
                simp
                omega
              · rw [if_neg hcc] at hc2
                exact hs c en hc2
  | edit code amount maxUses em note disable now =>
    intro c en hc
    rcases hcode : s.2 code with _ | en0
    · have hr : runOp g s (.edit code amount maxUses em note disable now)
          = s := by
        simp [runOp, hcode]
      rw [hr] at hc
      exact hs c en hc
    · have hc2 : (if c = code
          then some (editEntry en0 amount maxUses em note disable now)
          else s.2 c) = some en := by
        have hr : runOp g s (.edit code amount maxUses em note disable now)
            = (s.1, fun c => if c = code
                then some (editEntry en0 amount maxUses em note disable now)
                else s.2 c) := by
          simp [runOp, hcode]
        rw [hr] at hc
        exact hc
      by_cases hcc : c = code
      · rw [if_pos hcc] at hc2
        cases hc2
        rcases maxUses with _ | m
        · simpa [editEntry] using hs code en0 hcode
        · simpa [editEntry] using hop m en0 rfl hcode
      · rw [if_neg hcc] at hc2
        exact hs c en hc2
  | delete code =>
    intro c en hc
    have hc2 : (if c = code then none else s.2 c) = some en := hc
    by_cases hcc : c = code
    · rw [if_pos hcc] at hc2
      cases hc2
    · rw [if_neg hcc] at hc2
      exact hs c en hc2

theorem runOp_claimInv (g : Nat) (s : Econ × Codes) (op : RedeemOp)
    (hs : claimInv s.2) : claimInv (runOp g s op).2 := by
  cases op with
  | create code amount maxUses em note now =>
    by_cases hex : (s.2 code).isSome = true
    · have hr : runOp g s (.create code amount maxUses em note now) = s := by
        simp [runOp, hex]
      rw [hr]
      exact hs
    · intro c en hc
      have hc2 : (if c = code
          then some (⟨amount, maxUses, 0, createExpiry em now,
            note.getD "", [], false⟩ : RedeemEntry)
          else s.2 c) = some en := by
        have hr : runOp g s (.create code amount maxUses em note now)
            = (s.1, fun c => if c = code
                then some ⟨amount, maxUses, 0, createExpiry em now,
                  note.getD "", [], false⟩
                else s.2 c) := by
          simp [runOp, hex]
        rw [hr] at hc
        exact hc
      by_cases hcc : c = code
      · rw [if_pos hcc] at hc2
        cases hc2
        exact List.nodup_nil
      · rw [if_neg hcc] at hc2
        exact hs c en hc2
  | redeemOp u code now =>
    intro c en hc
    have hc1 : (redeem_cmd s.1 s.2 g u code now).2.1 c = some en := hc
    rcases hcode : s.2 code with _ | en0
    · rw [redeem_cmd_none s.1 s.2 g u code now hcode] at hc1
      exact hs c en hc1
    · rw [redeem_cmd_some s.1 s.2 g u code now en0 hcode] at hc1
      by_cases hd : en0.disabled = true
      · rw [if_pos hd] at hc1
        exact hs c en hc1
      · rw [if_neg hd] at hc1
        by_cases hx : en0.expires ≠ 0 ∧ en0.expires < now
        · rw [if_pos hx] at hc1
          exact hs c en hc1
        · rw [if_neg hx] at hc1
          by_cases hm : u ∈ en0.claimedBy
          · rw [if_pos hm] at hc1
            exact hs c en hc1
          · rw [if_neg hm] at hc1
            by_cases hu : en0.maxUses ≤ en0.uses
            · rw [if_pos hu] at hc1
              exact hs c en hc1
            · rw [if_neg hu] at hc1
              have hc2 : (if c = code
                  then some { en0 with uses := en0.uses + 1,
                                       claimedBy := u :: en0.claimedBy.dedup }
                  else s.2 c) = some en := hc1
              by_cases hcc : c = code
              · rw [if_pos hcc] at hc2
                cases hc2
                refine List.Nodup.cons ?_ en0.claimedBy.nodup_dedup
                intro habs
                exact hm (List.mem_dedup.mp habs)
              · rw [if_neg hcc] at hc2
                exact hs c en hc2
  | edit code amount maxUses em note disable now =>
    intro c en hc
    rcases hcode : s.2 code with _ | en0
    · have hr : runOp g s (.edit code amount maxUses em note disable now)
          = s := by
        simp [runOp, hcode]
      rw [hr] at hc
      exact hs c en hc
    · have hc2 : (if c = code
          then some (editEntry en0 amount maxUses em note disable now)
          else s.2 c) = some en := by
        have hr : runOp g s (.edit code amount maxUses em note disable now)
            = (s.1, fun c => if c = code
                then some (editEntry en0 amount maxUses em note disable now)
                else s.2 c) := by
          simp [runOp, hcode]
        rw [hr] at hc
        exact hc
      by_cases hcc : c = code
      · rw [if_pos hcc] at hc2
        cases hc2
        simpa [editEntry] using hs code en0 hcode
      · rw [if_neg hcc] at hc2
        exact hs c en hc2
  | delete code =>
    intro c en hc
    have hc2 : (if c = code then none else s.2 c) = some en := hc
    by_cases hcc : c = code
    · rw [if_pos hcc] at hc2
      cases hc2
    · rw [if_neg hcc] at hc2
      exact hs c en hc2

theorem runOps_usesInv (g : Nat) (ops : List RedeemOp) :
    ∀ s : Econ × Codes, usesInv s.2 → safeRun g s ops →
      usesInv (runOps g s ops).2 := by
  induction ops with
  | nil =>
    intro s hs _
    simpa [runOps] using hs
  | cons op rest ih =>
    intro s hs hsafe
    have h1 : opOkAt s op ∧ safeRun g (runOp g s op) rest := hsafe
    simp only [runOps, List.foldl_cons]
    exact ih (runOp g s op) (runOp_usesInv g s op hs h1.1) h1.2

theorem runOps_claimInv (g : Nat) (ops : List RedeemOp) :
    ∀ s : Econ × Codes, claimInv s.2 → claimInv (runOps g s ops).2 := by
  induction ops with
  | nil =>
    intro s hs
    simpa [runOps] using hs
  | cons op rest ih =>
    intro s hs
    simp only [runOps, List.foldl_cons]
    exact ih (runOp g s op) (runOp_claimInv g s op hs)

/-- C5 amended: along every operation sequence a user id appears in a
code's claimant set at most once, and a disabled or expired code credits
nothing — the redeeming user's ledger and the bucket stay untouched,
regardless of remaining uses — both without any side condition; and
`uses_so_far ≤ max_uses` holds along every sequence whose creates carry
a non-negative cap and whose edits never supply a `max_uses` below the
code's `uses_so_far` at that point (`redeem_edit` stores a supplied cap
unconditionally, which is exactly what the counterexample exploits). -/
theorem C5_invariant_amended (g : Nat) (e0 : Econ) (ops : List RedeemOp)
    (h : safeRun g (e0, codes0) ops) :
    usesInv (runOps g (e0, codes0) ops).2
    ∧ (∀ (e1 : Econ) (ops2 : List RedeemOp),
        claimInv (runOps g (e1, codes0) ops2).2)
    ∧ (∀ (e : Econ) (codes : Codes) (u : Nat) (c : String) (now : Int)
        (en : RedeemEntry), codes c = some en →
        (en.disabled = true ∨ (en.expires ≠ 0 ∧ en.expires < now)) →
        (redeem_cmd e codes g u c now).1 = e
        ∧ (redeem_cmd e codes g u c now).2.1 = codes) := by
  refine ⟨?_, ?_, ?_⟩
  · exact runOps_usesInv g ops (e0, codes0) (by intro c en hc; cases hc) h
  · intro e1 ops2
    exact runOps_claimInv g ops2 (e1, codes0) (by intro c en hc; cases hc)
  · intro e codes u c now en hen hde
    rcases hde with hd | hx
    · constructor
      · simp [redeem_cmd, hen, hd]
      · simp [redeem_cmd, hen, hd]
    · by_cases hd : en.disabled
      · exact ⟨by simp [redeem_cmd, hen, hd], by simp [redeem_cmd, hen, hd]⟩
      · exact ⟨by simp [redeem_cmd, hen, hd, hx],
          by simp [redeem_cmd, hen, hd, hx]⟩

/-- C5 amended witness: a concrete safe sequence — create a code with
cap 2, redeem it once, then edit the cap down to 1, which is still at
least the one recorded use — satisfies the uses bound; the unconditional
conjuncts are instantiated at guild 0. -/
theorem C5_invariant_amended_witness :
    usesInv (runOps 0 (econ0, codes0)
      [.create "B" 5 2 none none 0, .redeemOp 1 "B" 0,
       .edit "B" none (some 1) none none none 0]).2
    ∧ (∀ (e1 : Econ) (ops2 : List RedeemOp),
        claimInv (runOps 0 (e1, codes0) ops2).2)
    ∧ (∀ (e : Econ) (codes : Codes) (u : Nat) (c : String) (now : Int)
        (en : RedeemEntry), codes c = some en →
        (en.disabled = true ∨ (en.expires ≠ 0 ∧ en.expires < now)) →
        (redeem_cmd e codes 0 u c now).1 = e
        ∧ (redeem_cmd e codes 0 u c now).2.1 = codes) :=
  C5_invariant_amended 0 econ0
    [.create "B" 5 2 none none 0, .redeemOp 1 "B" 0,
     .edit "B" none (some 1) none none none 0]
    (by
      simp only [safeRun, opOkAt, and_true, true_and]
      refine ⟨?_, ?_⟩
      · norm_num
      · intro m en hm hen
        injection hm with hm1
        subst hm1
        have hv : (runOp 0 (runOp 0 (econ0, codes0)
            (RedeemOp.create "B" 5 2 none none 0))
            (RedeemOp.redeemOp 1 "B" 0)).2 "B"
            = some (⟨5, 2, 1, 0, "", [1], false⟩ : RedeemEntry) := by
          decide
        rw [hv] at hen
        injection hen with hen1
        subst hen1
        decide)

theorem eco_add_get_other (e : Econ) (g u : Nat) (d : Int) (g' u' : Nat)
    (h : ¬(g' = g ∧ u' = u)) :
    eco_get (eco_add e g u d).1 g' u' = eco_get e g' u' := by
  simp only [eco_add, eco_get]
  rw [upd2_other _ _ _ _ _ _ h]

theorem eco_add_balances_other (e : Econ) (g u : Nat) (d : Int) (g' u' : Nat)
    (h : ¬(g' = g ∧ u' = u)) :
    (eco_add e g u d).1.balances g' u' = e.balances g' u' := by
  simp only [eco_add]
  exact upd2_other _ _ _ _ _ _ h

/-- Handler `give_cmd` (src/bot.py lines 965-975), after the platform-level
recipient check (`user.bot or user.id == interaction.user.id` — the bot
flag lives outside the ledger, the self-transfer check is the `recip =
sender` guard here): reject non-positive amounts and insufficient sender
balance; otherwise debit the sender, credit the recipient, and log both
legs. -/
def give_cmd (e : Econ) (g : Nat) (sender recip : Nat) (amount t : Int) :
    Econ × Bool :=
  if recip = sender then (e, false)
  else if amount ≤ 0 then (e, false)
  else if eco_get e g sender < amount then (e, false)
  else
    let e1 := (eco_add e g sender (-amount)).1
    let e2 := (eco_add e1 g recip amount).1
    let e3 := log_history e2 g sender t "give" amount (-amount)
    (log_history e3 g recip t "give" amount amount, true)

/-- C10: a successful transfer moves exactly `amount` from the sender to
the recipient, touches no other account in any guild, and preserves the
sum of balances over any finite set of users of the guild containing the
two parties. -/
theorem C10_give (e : Econ) (g : Nat) (sender recip : Nat) (amount t : Int)
    (hne : recip ≠ sender) (hpos : 0 < amount)
    (hbal : amount ≤ eco_get e g sender) :
    (give_cmd e g sender recip amount t).2 = true
    ∧ eco_get (give_cmd e g sender recip amount t).1 g sender
        = eco_get e g sender - amount
    ∧ eco_get (give_cmd e g sender recip amount t).1 g recip
        = eco_get e g recip + amount
    ∧ (∀ g' u', ¬(g' = g ∧ u' = sender) → ¬(g' = g ∧ u' = recip) →
        (give_cmd e g sender recip amount t).1.balances g' u'
          = e.balances g' u')
    ∧ (∀ S : Finset Nat, sender ∈ S → recip ∈ S →
        S.sum (fun v => eco_get (give_cmd e g sender recip amount t).1 g v)
          = S.sum (fun v => eco_get e g v)) := by
  have hnl : ¬ amount ≤ 0 := not_le.mpr hpos
  have hns : ¬ eco_get e g sender < amount := not_lt.mpr hbal
  have hr : give_cmd e g sender recip amount t
      = (log_history
          (log_history (eco_add (eco_add e g sender (-amount)).1 g recip
            amount).1 g sender t "give" amount (-amount))
          g recip t "give" amount amount, true) := by
    simp [give_cmd, hne, hnl, hns]
  have hbalfun : (give_cmd e g sender recip amount t).1.balances
      = (eco_add (eco_add e g sender (-amount)).1 g recip amount).1.balances := by
    rw [hr]
    rfl
  have hpt : ∀ v, eco_get (give_cmd e g sender recip amount t).1 g v
      = eco_get e g v + (if v = sender then -amount else 0)
        + (if v = recip then amount else 0) := by
    intro v
    have hv : eco_get (give_cmd e g sender recip amount t).1 g v
        = eco_get (eco_add (eco_add e g sender (-amount)).1 g recip
            amount).1 g v := by
      simp only [eco_get, hbalfun]
    rw [hv]
    by_cases hvs : v = sender
    · subst hvs
      rw [eco_add_get_other _ _ _ _ _ _ (fun hh => hne hh.2.symm),
        eco_add_get_same, if_pos rfl, if_neg (Ne.symm hne)]
      ring
    · by_cases hvr : v = recip
      · subst hvr
        rw [eco_add_get_same,
          eco_add_get_other _ _ _ _ _ _ (fun hh => hvs hh.2),
          if_neg hne, if_pos rfl]
        ring
      · rw [eco_add_get_other _ _ _ _ _ _ (fun hh => hvr hh.2),
          eco_add_get_other _ _ _ _ _ _ (fun hh => hvs hh.2),
          if_neg hvs, if_neg hvr]
        ring
  refine ⟨by rw [hr], ?_, ?_, ?_, ?_⟩
  · rw [hpt sender, if_pos rfl, if_neg (Ne.symm hne)]
    ring
  · rw [hpt recip, if_neg hne, if_pos rfl]
    ring
  · intro g' u' hs2 hr2
    rw [hbalfun, eco_add_balances_other _ _ _ _ _ _ hr2,
      eco_add_balances_other _ _ _ _ _ _ hs2]
  · intro S hsS hrS
    have hcong : S.sum (fun v => eco_get (give_cmd e g sender recip amount t).1 g v)
        = S.sum (fun v => eco_get e g v + (if v = sender then -amount else 0)
            + (if v = recip then amount else 0)) :=
      Finset.sum_congr rfl (fun v _ => hpt v)
    rw [hcong]
    rw [Finset.sum_add_distrib, Finset.sum_add_distrib]
    rw [Finset.sum_ite_eq' S sender (fun _ => -amount),
      Finset.sum_ite_eq' S recip (fun _ => amount)]
    rw [if_pos hsS, if_pos hrS]
    ring

/-- C10 witness: user 1 with balance 40 gives 30 to user 2 in guild 0,
over the user set {1, 2, 3}. -/
theorem C10_give_witness :
    ((give_cmd { econ0 with balances := fun _ v => if v = 1 then some 40 else none }
        0 1 2 30 9).2 = true)
    ∧ eco_get (give_cmd
        { econ0 with balances := fun _ v => if v = 1 then some 40 else none }
        0 1 2 30 9).1 0 1
      = eco_get { econ0 with balances := fun _ v => if v = 1 then some 40 else none }
          0 1 - 30
    ∧ eco_get (give_cmd
        { econ0 with balances := fun _ v => if v = 1 then some 40 else none }
        0 1 2 30 9).1 0 2
      = eco_get { econ0 with balances := fun _ v => if v = 1 then some 40 else none }
          0 2 + 30
    ∧ (∀ g' u', ¬(g' = 0 ∧ u' = 1) → ¬(g' = 0 ∧ u' = 2) →
        (give_cmd { econ0 with balances := fun _ v => if v = 1 then some 40 else none }
          0 1 2 30 9).1.balances g' u'
        = ({ econ0 with balances := fun _ v => if v = 1 then some 40 else none }
            : Econ).balances g' u')
    ∧ (∀ S : Finset Nat, 1 ∈ S → 2 ∈ S →
        S.sum (fun v => eco_get (give_cmd
          { econ0 with balances := fun _ v => if v = 1 then some 40 else none }
          0 1 2 30 9).1 0 v)
        = S.sum (fun v => eco_get
            { econ0 with balances := fun _ v => if v = 1 then some 40 else none }
            0 v)) :=
  C10_give { econ0 with balances := fun _ v => if v = 1 then some 40 else none }
    0 1 2 30 9 (by decide) (by decide) (by decide)

/-- The per-round state of `BJView` (src/bot.py line 811): the `finished`
idempotency flag and the current bet. -/
structure BJState where
  finished : Bool
  currentBet : Int
deriving DecidableEq, Repr

/-- Method `BJView.finish` (src/bot.py lines 812-822): guarded by the `finished`
flag — a repeated call returns immediately with nothing changed; the
first call applies the delta and logs one blackjack entry. -/
def bj_finish (st : BJState) (e : Econ) (g u : Nat) (t delta : Int) :
    BJState × Econ :=
  if st.finished then (st, e)
  else ({ st with finished := true },
        log_history (eco_add e g u delta).1 g u t "blackjack" st.currentBet delta)

/-- The per-round state of `CrashView` (src/bot.py line 872): the
`cashed` flag. -/
structure CrashState where
  cashed : Bool
deriving DecidableEq, Repr

/-- Method `CrashView.cashout` (src/bot.py lines 874-886): a no-op when `cashed`
is already set or the multiplier is below the 1.25x threshold; otherwise
it sets the flag and credits `int(round(bet * max(0.0, mult-1.0-edge)))`. -/
def crash_cashout (st : CrashState) (e : Econ) (g u : Nat) (t bet : Int)
    (mult edge : ℚ) : CrashState × Econ :=
  if st.cashed then (st, e)
  else if mult < 5/4 then (st, e)
  else
    let win := pyRound ((bet : ℚ) * max 0 (mult - 1 - edge))
    (⟨true⟩, log_history (eco_add e g u win).1 g u t "crash" bet win)

/-- The bust auto-resolution of `crash_cmd` (src/bot.py lines 898-901):
guarded by `if not view.cashed`, it debits the stake and logs — but it
never sets the `cashed` flag itself. -/
def crash_bust (st : CrashState) (e : Econ) (g u : Nat) (t bet : Int) :
    CrashState × Econ :=
  if st.cashed then (st, e)
  else (st, log_history (eco_add e g u (-bet)).1 g u t "crash" bet (-bet))

/-- C6, failing input: the guarded paths are no-ops (a second
`BJView.finish` and a cash-out after a cash-out change nothing), but a
bust auto-resolution leaves `cashed = false`, so a Cash Out click
processed after the bust (bet 100, multiplier 1.30, edge 0.02) applies a
second delta: the balance moves from -100 to -72 and a second history
entry appears, instead of the resolution being applied exactly once. -/
theorem C6_crash_double_resolution :
    (bj_finish
        (bj_finish ⟨false, 100⟩ econ0 0 0 1 198).1
        (bj_finish ⟨false, 100⟩ econ0 0 0 1 198).2 0 0 1 198).2
      = (bj_finish ⟨false, 100⟩ econ0 0 0 1 198).2
    ∧ (crash_bust ⟨false⟩ econ0 0 0 1 100).1.cashed = false
    ∧ eco_get (crash_bust ⟨false⟩ econ0 0 0 1 100).2 0 0 = -100
    ∧ ((crash_bust ⟨false⟩ econ0 0 0 1 100).2.history 0 0).length = 1
    ∧ eco_get (crash_cashout (crash_bust ⟨false⟩ econ0 0 0 1 100).1
        (crash_bust ⟨false⟩ econ0 0 0 1 100).2 0 0 2 100 (13/10) (1/50)).2 0 0
      = -72
    ∧ ((crash_cashout (crash_bust ⟨false⟩ econ0 0 0 1 100).1
        (crash_bust ⟨false⟩ econ0 0 0 1 100).2 0 0 2 100 (13/10)
        (1/50)).2.history 0 0).length = 2
    ∧ (crash_cashout
        (crash_cashout (crash_bust ⟨false⟩ econ0 0 0 1 100).1
          (crash_bust ⟨false⟩ econ0 0 0 1 100).2 0 0 2 100 (13/10) (1/50)).1
        (crash_cashout (crash_bust ⟨false⟩ econ0 0 0 1 100).1
          (crash_bust ⟨false⟩ econ0 0 0 1 100).2 0 0 2 100 (13/10) (1/50)).2
        0 0 3 100 (13/10) (1/50)).2
      = (crash_cashout (crash_bust ⟨false⟩ econ0 0 0 1 100).1
          (crash_bust ⟨false⟩ econ0 0 0 1 100).2 0 0 2 100 (13/10) (1/50)).2 := by
  have hwin : pyRound (((100 : ℤ) : ℚ) * max 0 (13/10 - 1 - 1/50)) = 28 := by
    have hmax : max (0 : ℚ) (13/10 - 1 - 1/50) = 7/25 := by
      rw [max_eq_right (by norm_num : (0 : ℚ) ≤ 13/10 - 1 - 1/50)]
      norm_num
    rw [hmax]
    norm_num [pyRound]
  have hbust : crash_bust ⟨false⟩ econ0 0 0 1 100
      = (⟨false⟩, log_history (eco_add econ0 0 0 (-100)).1 0 0 1 "crash"
          100 (-100)) := by
    simp [crash_bust]
  have hnotlt : ¬ (13/10 : ℚ) < 5/4 := by norm_num
  have hcash : crash_cashout (⟨false⟩ : CrashState)
      (log_history (eco_add econ0 0 0 (-100)).1 0 0 1 "crash" 100 (-100))
      0 0 2 100 (13/10) (1/50)
      = (⟨true⟩, log_history
          (eco_add (log_history (eco_add econ0 0 0 (-100)).1 0 0 1 "crash"
            100 (-100)) 0 0 28).1 0 0 2 "crash" 100 28) := by
    simp only [crash_cashout, hnotlt, if_neg, hwin]
    simp
  refine ⟨?_, ?_, ?_, ?_, ?_, ?_, ?_⟩
  · simp [bj_finish]
  · rw [hbust]
  · rw [hbust]
    have h1 : eco_get (log_history (eco_add econ0 0 0 (-100)).1 0 0 1 "crash"
        100 (-100)) 0 0 = eco_get (eco_add econ0 0 0 (-100)).1 0 0 := rfl
    rw [h1, eco_add_get_same]
    rfl
  · rw [hbust]
    rw [log_history_history]
    simp [econ0, eco_add]
  · rw [hbust, hcash]
    have h1 : eco_get (log_history (eco_add (log_history
        (eco_add econ0 0 0 (-100)).1 0 0 1 "crash" 100 (-100)) 0 0 28).1
        0 0 2 "crash" 100 28) 0 0
        = eco_get (eco_add (log_history (eco_add econ0 0 0 (-100)).1 0 0 1
            "crash" 100 (-100)) 0 0 28).1 0 0 := rfl
    rw [h1, eco_add_get_same]
    have h2 : eco_get (log_history (eco_add econ0 0 0 (-100)).1 0 0 1 "crash"
        100 (-100)) 0 0 = eco_get (eco_add econ0 0 0 (-100)).1 0 0 := rfl
    rw [h2, eco_add_get_same]
    rfl
  · rw [hbust, hcash]
    rw [log_history_history]
    have hprev : ((eco_add (log_history (eco_add econ0 0 0 (-100)).1 0 0 1
        "crash" 100 (-100)) 0 0 28).1.history 0 0).length = 1 := by
      rw [eco_add_keeps_history, log_history_history]
      simp [econ0, eco_add]
    rw [if_neg (by rw [hprev]; omega)]
    simp [hprev]
  · rw [hbust, hcash]
    simp [crash_cashout]

end Touka
